import Mathlib

/-!
Verification of the `diagnostic_render` crate's layout engine and renderer.

The definitions below are a shallow embedding of the Rust source:
  * `src/diagnostic.rs` — diagnostic data structures,
  * `src/render/data.rs` — drawing primitive data,
  * `src/render/calculate/mod.rs` — the line layout core,
  * `src/render/mod.rs` — the block driver / emitter.

The crate's `file` module (`SimpleFile`, the `Files` trait) is declared in
`lib.rs` but its source is not part of the source tree; the file-database
definitions below are modelled from the specification (§6) and marked as such.
The renderer is specialized to a single source file (`FileId = ()`, as in the
crate's own tests), so the `BTreeMap` grouping by file id degenerates to a
single group holding the annotations in their original order.

Machine integers (`u32`, `usize`) are modelled as `Nat`; the Rust code never
overflows on the inputs considered here, and saturating subtractions map to
truncated `Nat` subtraction.  Error plumbing (`Result<_, Error>`) is dropped:
the modelled file database is total, so the `?` operator never propagates an
error in any execution considered here.  Assertions/panics in the Rust code
are not modelled; no theorem below depends on an input that panics, except
where explicitly noted.
-/

namespace DiagnosticRender

/-- Severity levels, `src/diagnostic.rs` (`Help < Note < Warning < Error < Bug`). -/
inductive Severity where
  | help
  | note
  | warning
  | error
  | bug
deriving DecidableEq, Repr

/-- `Display for Severity`, `src/diagnostic.rs`. -/
def Severity.display : Severity → String
  | .bug => "bug"
  | .error => "error"
  | .warning => "warning"
  | .note => "note"
  | .help => "help"

/-- Annotation styles, `src/diagnostic.rs`. -/
inductive AnnotationStyle where
  | primary
  | secondary
deriving DecidableEq, Repr

/-- A location by 0-based line and column index, `src/render/mod.rs` (`LineColumn`). -/
structure LineColumn where
  line_index : Nat
  column_index : Nat
deriving DecidableEq, Repr

def LineColumn.new (line_index column_index : Nat) : LineColumn :=
  ⟨line_index, column_index⟩

/-- An annotation (`Annotation` in `src/diagnostic.rs`; shortened here
to `Annot`): one underlined byte range with an optional label.
The renderer is specialized to a single file, so the
`file_id` field (`()` in the crate's tests) is omitted.  The byte range
`range: Range<usize>` is split into its two endpoints. -/
structure Annot where
  style : AnnotationStyle
  range_start : Nat
  range_end : Nat
  label : String
deriving DecidableEq, Repr

/-- A note attached to a diagnostic, `src/diagnostic.rs`. -/
structure Note where
  severity : Severity
  message : String
deriving DecidableEq, Repr

/-- A diagnostic, `src/diagnostic.rs`. -/
structure Diagnostic where
  severity : Severity
  name : Option String
  message : String
  annotations : List Annot
  notes : List Note
  suppressed_count : Nat
deriving DecidableEq, Repr

/-! ## The file database

Modelled from the spec: the crate's `file` module (`SimpleFile`, the `Files`
trait) is declared in `lib.rs` but missing from the source tree.  Per §6 the
database offers `name`, `source`, `lineIndex` (0-based line of a byte
offset), `lineRange` (`[startByte, endByte)`, trailing `\n` included so that
the emitter can trim it), `lineNumber` (1-based) and `location` (1-based
line/column).  The functions below are total; out-of-range queries clamp,
which agrees with every in-range use in the claims. -/

/-- A single in-memory source file (modelled from the spec, §6). -/
structure SimpleFile where
  name : String
  source : List Char
deriving DecidableEq, Repr

/-- Modelled from the spec: 0-based line index of a byte offset — the number
of newlines strictly before the offset. -/
def SimpleFile.line_index (f : SimpleFile) (offset : Nat) : Nat :=
  (f.source.take offset).count '\n'

/-- Byte offset at which line `li` starts: the position just after the
`li`-th newline (0 for line 0, clamped to the length for lines past the
end). -/
def lineStartOf : List Char → Nat → Nat
  | _, 0 => 0
  | [], _ + 1 => 0
  | c :: rest, li + 1 =>
    if c = '\n' then 1 + lineStartOf rest li else 1 + lineStartOf rest (li + 1)

/-- Modelled from the spec: start byte of `lineRange`. -/
def SimpleFile.line_range_start (f : SimpleFile) (li : Nat) : Nat :=
  lineStartOf f.source li

/-- Modelled from the spec: end byte (exclusive) of `lineRange`; the trailing
newline is inside the range. -/
def SimpleFile.line_range_end (f : SimpleFile) (li : Nat) : Nat :=
  lineStartOf f.source (li + 1)

/-- Modelled from the spec: 1-based user-facing line number. -/
def SimpleFile.line_number (_f : SimpleFile) (li : Nat) : Nat :=
  li + 1

/-- Modelled from the spec: 1-based line/column of a byte offset. -/
def SimpleFile.location (f : SimpleFile) (offset : Nat) : Nat × Nat :=
  let li := f.line_index offset
  (li + 1, offset - f.line_range_start li + 1)

/-- The text of line `li` (bytes `lineRange(li)`), as characters. -/
def SimpleFile.source_line (f : SimpleFile) (li : Nat) : List Char :=
  (f.source.take (f.line_range_end li)).drop (f.line_range_start li)

/-! ## Drawing primitive data, `src/render/data.rs` -/

structure ContinuingMultilineAnnotationData where
  style : AnnotationStyle
  severity : Severity
  vertical_bar_index : Nat
deriving DecidableEq, Repr

structure ConnectingMultilineAnnotationData where
  style : AnnotationStyle
  severity : Severity
  end_location : LineColumn
  vertical_bar_index : Nat
deriving DecidableEq, Repr

structure StartAnnotationLineData where
  style : AnnotationStyle
  severity : Severity
  location : LineColumn
deriving DecidableEq, Repr

structure ConnectingSinglelineAnnotationData where
  style : AnnotationStyle
  as_multiline : Bool
  severity : Severity
  line_index : Nat
  start_column_index : Nat
  end_column_index : Nat
deriving DecidableEq, Repr

structure EndAnnotationLineData where
  style : AnnotationStyle
  severity : Severity
  location : LineColumn
deriving DecidableEq, Repr

structure HangingAnnotationLineData where
  style : AnnotationStyle
  severity : Severity
  location : LineColumn
deriving DecidableEq, Repr

structure LabelAnnotationLineData where
  style : AnnotationStyle
  severity : Severity
  location : LineColumn
  label : String
deriving DecidableEq, Repr

/-- Per-line incidence of an annotation, `src/render/data.rs`. -/
inductive StartEndAnnotationData where
  | start (s : StartAnnotationLineData)
  | «end» (e : EndAnnotationLineData)
  | both (s : StartAnnotationLineData) (e : EndAnnotationLineData)
deriving DecidableEq, Repr

/-- The drawing primitives, `src/render/data.rs` (`enum AnnotationData`).
The `Start` variant is constructed in `calculate/mod.rs` and matched in
`render/mod.rs`, so it is part of the enum even though the copy of
`data.rs` in the source tree omits it. -/
inductive AnnotationData where
  | continuingMultiline (d : ContinuingMultilineAnnotationData)
  | connectingMultiline (d : ConnectingMultilineAnnotationData)
  | start (d : StartAnnotationLineData)
  | connectingSingleline (d : ConnectingSinglelineAnnotationData)
  | «end» (d : EndAnnotationLineData)
  | hanging (d : HangingAnnotationLineData)
  | label (d : LabelAnnotationLineData)
deriving DecidableEq, Repr

/-- Whether a primitive is a continuing vertical bar (used by the row loop in
`calculate_final_data`). -/
def AnnotationData.isContinuing : AnnotationData → Bool
  | .continuingMultiline _ => true
  | _ => false

/-- Whether a primitive is a label. -/
def AnnotationData.isLabel : AnnotationData → Bool
  | .label _ => true
  | _ => false

/-- Modelled from the spec: `AnnotationData::start_column_index`, called at
`calculate/mod.rs:414` but not defined in the source tree.  Per §4.2, each
row is "finally stably sorted by the effective starting column of its
primitives"; per §4.4 the effective start of a gutter primitive is `2k+1`
(resp. `2k+2`) while a source-column primitive starts at
`col + 2·maxNestedBlocks + 1`, which is to the right of every gutter column.
The key is therefore a lexicographic pair: gutter primitives in tier 0
(ordered by bar index), source primitives in tier 1 (ordered by column). -/
def AnnotationData.start_column_key : AnnotationData → Nat × Nat
  | .continuingMultiline d => (0, 2 * d.vertical_bar_index + 1)
  | .connectingMultiline d => (0, 2 * d.vertical_bar_index + 2)
  | .start d => (1, d.location.column_index)
  | .connectingSingleline d => (1, d.start_column_index)
  | .«end» d => (1, d.location.column_index)
  | .hanging d => (1, d.location.column_index)
  | .label d => (1, d.location.column_index)

/-! ## The line layout core, `src/render/calculate/mod.rs` -/

/-- Column used to sort the incidence list (`calculate`, lines 60–69):
start column for `Start`/`Both`, end column for `End`. -/
def seSortColumn : StartEndAnnotationData → Nat
  | .start s | .both s _ => s.location.column_index
  | .«end» e => e.location.column_index

/-- The "end" column of an incidence as read by the single-line bump check
(`calculate_vertical_offsets`, lines 156–162). -/
def seEndValue : StartEndAnnotationData → Nat
  | .start s => s.location.column_index
  | .«end» e => e.location.column_index
  | .both _ e => e.location.column_index

/-- The "start" column of an incidence as read by the ending bump check
(`calculate_vertical_offsets`, lines 258–264). -/
def seStartValue : StartEndAnnotationData → Nat
  | .start s => s.location.column_index
  | .«end» e => e.location.column_index
  | .both s _ => s.location.column_index

/-- Build the incidence data of one annotation on `line_index`
(`calculate`, lines 25–59).  Returns `none` where the Rust code panics
("Annotation neither starts nor ends in this line"). -/
def startEndDataFor (diagnostic : Diagnostic) (f : SimpleFile) (line_index : Nat)
    (a : Annot) : Option (Annot × StartEndAnnotationData) :=
  let startLine := f.line_index a.range_start
  let endLine := f.line_index a.range_end
  let start_part : Option StartAnnotationLineData :=
    if startLine = line_index then
      some { style := a.style, severity := diagnostic.severity,
             location := LineColumn.new line_index
               (a.range_start - f.line_range_start startLine) }
    else none
  let end_part : Option EndAnnotationLineData :=
    if endLine = line_index then
      some { style := a.style, severity := diagnostic.severity,
             location := LineColumn.new line_index
               ((a.range_end - f.line_range_start endLine) - 1) }
    else none
  match start_part, end_part with
  | some s, some e => some (a, .both s e)
  | some s, none => some (a, .start s)
  | none, some e => some (a, .«end» e)
  | none, none => none

/-- The sorted incidence list (`calculate`, lines 25–69). -/
def startsEndsOf (diagnostic : Diagnostic) (f : SimpleFile) (line_index : Nat)
    (annotations : List Annot) : List (Annot × StartEndAnnotationData) :=
  List.insertionSort (fun x y => seSortColumn x.2 ≤ seSortColumn y.2)
    (annotations.filterMap (startEndDataFor diagnostic f line_index))

/-- Number of `Start` incidences (`static_offset_from_start`, lines 94–98). -/
def staticOffsetFromStart (starts_ends : List (Annot × StartEndAnnotationData)) : Nat :=
  starts_ends.foldl
    (fun acc x => match x.2 with
      | .start _ => acc + 1
      | _ => acc) 0

/-- Bump check of the single-line pass (lines 151–168): scanning all
incidences but the rightmost, does any reported end column reach the start
column of the current single-line annotation? -/
def bothBumpCheck (starts_ends : List (Annot × StartEndAnnotationData))
    (startCol : Nat) : Bool :=
  starts_ends.dropLast.any (fun x => startCol ≤ seEndValue x.2)

/-- The single-line (`Both`) pass of `calculate_vertical_offsets`
(lines 132–184), iterating over the enumerated incidences in reverse.
Returns the updated offsets and running `next_vertical_offset`.
(`end_offset_for_start` only feeds the assertion in the start pass and is
not modelled.) -/
def singlelinePassGo (all : List (Annot × StartEndAnnotationData))
    : List (Nat × (Annot × StartEndAnnotationData)) → List Nat → Nat → List Nat × Nat
  | [], offsets, nvo => (offsets, nvo)
  | (i, (a, se)) :: rest, offsets, nvo =>
    match se with
    | .both s _ =>
      if a.label = "" then
        let nvo := if i = all.length - 1 then nvo + 1 else nvo
        singlelinePassGo all rest offsets nvo
      else
        let nvo :=
          if nvo = 0 then
            (if bothBumpCheck all s.location.column_index then nvo + 1 else nvo)
              + staticOffsetFromStart all
          else nvo
        singlelinePassGo all rest (offsets.set i nvo) (nvo + 1)
    | _ => singlelinePassGo all rest offsets nvo

/-- Bump check of the ending pass (lines 249–271): does any other incidence
start at or before the end column of the current ending annotation? -/
def endBumpCheck (all : List (Annot × StartEndAnnotationData))
    (i : Nat) (endCol : Nat) : Bool :=
  all.enum.any (fun x => x.1 ≠ i && seStartValue x.2.2 ≤ endCol)

/-- The special-case bump of the ending pass (lines 246–271): when the
running offset is still 0 and another incidence starts at or before this
end column, increment it once. -/
def endPassBump (all : List (Annot × StartEndAnnotationData))
    (i : Nat) (endCol : Nat) (nvo : Nat) : Nat :=
  if nvo = 0 then
    if endBumpCheck all i endCol then nvo + 1 else nvo
  else nvo

/-- The ending pass of `calculate_vertical_offsets` (lines 186–277):
the ending annotations, sorted by their range's start byte ascending, are
processed in reverse (descending start byte), each receiving the next
vertical offset. -/
def endPassGo (all : List (Annot × StartEndAnnotationData))
    : List (Nat × Nat × EndAnnotationLineData) → List Nat → Nat → List Nat × Nat
  | [], offsets, nvo => (offsets, nvo)
  | (i, _, e) :: rest, offsets, nvo =>
    let nvo := endPassBump all i e.location.column_index nvo
    endPassGo all rest (offsets.set i nvo) (nvo + 1)

/-- Comparison used to sort the ending annotations by their range's start
byte (`starts.sort_unstable_by`, line 209). -/
def endKeyLe (x y : Nat × Nat × EndAnnotationLineData) : Prop :=
  x.2.1 ≤ y.2.1

instance : DecidableRel endKeyLe := fun x y => Nat.decLe x.2.1 y.2.1

instance : IsTotal (Nat × Nat × EndAnnotationLineData) endKeyLe :=
  ⟨fun x y => Nat.le_total x.2.1 y.2.1⟩

instance : IsTrans (Nat × Nat × EndAnnotationLineData) endKeyLe :=
  ⟨fun _ _ _ h1 h2 => Nat.le_trans h1 h2⟩

/-- The `(index, start byte, end data)` triple collected for an ending
annotation (lines 191–199). -/
def endingTriple (x : Nat × (Annot × StartEndAnnotationData))
    : Option (Nat × Nat × EndAnnotationLineData) :=
  match x.2.2 with
  | .«end» e => some (x.1, x.2.1.range_start, e)
  | _ => none

/-- The `(index, start byte, end data)` triples of the ending annotations
(lines 188–209), sorted ascending by start byte. -/
def endingStarts (starts_ends : List (Annot × StartEndAnnotationData))
    : List (Nat × Nat × EndAnnotationLineData) :=
  List.insertionSort endKeyLe (starts_ends.enum.filterMap endingTriple)

/-- The starting pass of `calculate_vertical_offsets` (lines 279–331); the
assertion against `end_offset_for_start` is not modelled. -/
def startPassGo : List (Nat × (Annot × StartEndAnnotationData)) → List Nat → Nat → List Nat
  | [], offsets, _ => offsets
  | (i, (_, se)) :: rest, offsets, nso =>
    match se with
    | .start _ => startPassGo rest (offsets.set i nso) (nso + 1)
    | _ => startPassGo rest offsets nso

/-- `calculate_vertical_offsets` (lines 81–337). -/
def calculate_vertical_offsets
    (starts_ends : List (Annot × StartEndAnnotationData)) : List Nat :=
  let offsets0 := List.replicate starts_ends.length 0
  let sl := singlelinePassGo starts_ends starts_ends.enum.reverse offsets0 0
  let ep := endPassGo starts_ends (endingStarts starts_ends).reverse sl.1 sl.2
  let nso := if 0 < ep.2 then 1 else 0
  startPassGo starts_ends.enum ep.1 nso

/-- `continuing_end_index` initialization (`calculate_final_data`,
lines 350–364): the length of the prefix of `continuing_annotations` whose
range starts on an earlier line. -/
def continuingEndIndexOf (f : SimpleFile) (line_index : Nat)
    (continuing : List Annot) : Nat :=
  (continuing.takeWhile (fun a => f.line_index a.range_start < line_index)).length

/-- Mutable state threaded through `calculate_single_line_data`. -/
structure RowState where
  continuing_end_index : Nat
  additional_continuing_indices : List Nat
  vertical_offsets : List Nat
  already_connected : List Bool
deriving Repr

/-- The move-down scan (`calculate_single_line_data`, lines 449–474): the
last index of a `Start`/`End` incidence with this row's offset that has not
connected yet. -/
def moveDownTarget (starts_ends : List (Annot × StartEndAnnotationData))
    (vertical_index : Nat) (offsets : List Nat) (connected : List Bool) : Option Nat :=
  (List.range starts_ends.length).foldl
    (fun acc i =>
      match starts_ends.get? i with
      | some (_, se) =>
        if (match se with
            | .start _ | .«end» _ => true
            | .both _ _ => false)
            && offsets.getD i 0 = vertical_index && !(connected.getD i false) then
          some i
        else acc
      | none => acc) none

/-- Applying move-down (lines 476–515): every `End`/`Both` incidence left of
the triggering one with a smaller offset and a non-empty label is pushed
below the new connector, scanning indices in reverse. -/
def moveDownApply (starts_ends : List (Annot × StartEndAnnotationData))
    (i : Nat) (to_offset : Nat) (offsets : List Nat) : List Nat :=
  let column_index :=
    match starts_ends.get? i with
    | some (_, se) => seStartValue se
    | none => 0
  ((List.range starts_ends.length).reverse.foldl
    (fun (st : List Nat × Nat) j =>
      let (offsets, next) := st
      if j = i then st
      else
        match starts_ends.get? j with
        | some (a, se) =>
          let endCol? : Option Nat :=
            match se with
            | .«end» e | .both _ e => some e.location.column_index
            | .start _ => none
          match endCol? with
          | some endCol =>
            if offsets.getD j 0 < to_offset && endCol ≤ column_index && a.label ≠ "" then
              (offsets.set j next, next + 1)
            else st
          | none => st
        | none => st)
    (offsets, to_offset + 1)).1

/-- One step of the main fold of `calculate_single_line_data`
(lines 525–650) for the incidence at index `i`. -/
def singleLineDataStep (diagnostic : Diagnostic) (vertical_index : Nat)
    (st : List AnnotationData × RowState) (i : Nat)
    (x : Annot × StartEndAnnotationData) : List AnnotationData × RowState :=
  let (acc, rs) := st
  let (annot, start_end) := x
  let offset := rs.vertical_offsets.getD i 0
  match start_end with
  | .start s =>
    let (acc, rs) :=
      if offset = vertical_index && !(rs.already_connected.getD i false) then
        (acc ++ [.connectingMultiline {
            style := annot.style, severity := diagnostic.severity,
            end_location := s.location,
            vertical_bar_index :=
              rs.continuing_end_index + rs.additional_continuing_indices.length }],
         { rs with
            additional_continuing_indices := rs.additional_continuing_indices ++ [i],
            already_connected := rs.already_connected.set i true })
      else (acc, rs)
    if vertical_index = 0 then
      (acc ++ [.start s], rs)
    else if vertical_index ≤ offset then
      (acc ++ [.hanging { style := annot.style, severity := diagnostic.severity,
                          location := s.location }], rs)
    else (acc, rs)
  | .«end» e =>
    let (acc, rs) :=
      if offset = vertical_index && !(rs.already_connected.getD i false) then
        (acc ++ [.connectingMultiline {
            style := annot.style, severity := diagnostic.severity,
            end_location := e.location,
            vertical_bar_index :=
              (rs.continuing_end_index + rs.additional_continuing_indices.length) - 1 }],
         { rs with
            continuing_end_index := rs.continuing_end_index - 1,
            already_connected := rs.already_connected.set i true })
      else (acc, rs)
    if vertical_index = 0 then
      (acc ++ [.«end» e], rs)
    else if offset ≠ 0 && offset + 1 = vertical_index && annot.label ≠ "" then
      (acc ++ [.label { style := annot.style, severity := diagnostic.severity,
                        location := e.location, label := annot.label }], rs)
    else if vertical_index ≤ offset then
      (acc ++ [.hanging { style := annot.style, severity := diagnostic.severity,
                          location := e.location }], rs)
    else (acc, rs)
  | .both s e =>
    if vertical_index = 0 then
      (acc ++ [.start s,
        .connectingSingleline {
          style := annot.style, as_multiline := false,
          severity := diagnostic.severity, line_index := s.location.line_index,
          start_column_index := s.location.column_index,
          end_column_index := e.location.column_index },
        .«end» e], rs)
    else if offset ≠ 0 && offset + 1 = vertical_index && annot.label ≠ "" then
      (acc ++ [.label { style := annot.style, severity := diagnostic.severity,
                        location := s.location, label := annot.label }], rs)
    else if vertical_index ≤ offset then
      (acc ++ [.hanging { style := annot.style, severity := diagnostic.severity,
                          location := s.location }], rs)
    else (acc, rs)

/-- `calculate_single_line_data` (lines 421–675).  The `line_index`
argument is used only for the trailing label's location. -/
def calculate_single_line_data (diagnostic : Diagnostic) (line_index : Nat)
    (vertical_index : Nat) (continuing_annotations : List Annot)
    (starts_ends : List (Annot × StartEndAnnotationData))
    (rs : RowState) : List AnnotationData × RowState :=
  -- continuing vertical bars (lines 428–447)
  let data : List AnnotationData :=
    ((continuing_annotations.take rs.continuing_end_index).enum.map (fun x =>
      AnnotationData.continuingMultiline {
        style := x.2.style, severity := diagnostic.severity,
        vertical_bar_index := x.1 }))
    ++ (rs.additional_continuing_indices.enum.map (fun x =>
      AnnotationData.continuingMultiline {
        style := match starts_ends.get? x.2 with
          | some (a, _) => a.style
          | none => .primary,
        severity := diagnostic.severity,
        vertical_bar_index := rs.continuing_end_index + x.1 }))
  -- move-down adjustment (lines 449–516)
  let rs :=
    match moveDownTarget starts_ends vertical_index rs.vertical_offsets
        rs.already_connected with
    | some i =>
      { rs with vertical_offsets :=
          moveDownApply starts_ends i vertical_index rs.vertical_offsets }
    | none => rs
  -- main fold (lines 525–650)
  let (data, rs) := (starts_ends.enum.foldl
    (fun st x => singleLineDataStep diagnostic vertical_index st x.1 x.2) (data, rs))
  -- trailing label on the underline row (lines 652–672)
  let data :=
    if vertical_index = 0 && rs.vertical_offsets.getD (starts_ends.length - 1) 0 = 0 then
      match starts_ends.get? (starts_ends.length - 1) with
      | some (a, se) =>
        let label_pos : Option Nat :=
          match se with
          | .«end» e => some e.location.column_index
          | .both _ e => some e.location.column_index
          | .start _ => none
        match label_pos with
        | some pos =>
          if a.label ≠ "" then
            data ++ [.label { style := a.style, severity := diagnostic.severity,
                              location := LineColumn.new line_index (pos + 2),
                              label := a.label }]
          else data
        | none => data
      | none => data
    else data
  (data, rs)

/-- The row loop of `calculate_final_data` (lines 384–395), bounded by
`fuel`: rows are produced for vertical indices `1, 2, …` until a row holds
only continuing bars (that row is dropped). -/
def finalDataLoop (diagnostic : Diagnostic) (line_index : Nat)
    (continuing_annotations : List Annot)
    (starts_ends : List (Annot × StartEndAnnotationData))
    : Nat → Nat → RowState → List (List AnnotationData)
  | 0, _, _ => []
  | fuel + 1, vertical_index, rs =>
    let r := calculate_single_line_data diagnostic line_index vertical_index
      continuing_annotations starts_ends rs
    if r.1.any (fun a => !a.isContinuing) then
      r.1 :: finalDataLoop diagnostic line_index continuing_annotations starts_ends
        fuel (vertical_index + 1) r.2
    else []

/-- `calculate_final_data` (lines 339–418). -/
def calculate_final_data (diagnostic : Diagnostic) (f : SimpleFile) (line_index : Nat)
    (starts_ends : List (Annot × StartEndAnnotationData))
    (vertical_offsets : List Nat) (continuing_annotations : List Annot)
    (fuel : Nat) : List (List AnnotationData) :=
  let rs : RowState := {
    continuing_end_index := continuingEndIndexOf f line_index continuing_annotations,
    additional_continuing_indices := [],
    vertical_offsets := vertical_offsets,
    already_connected := List.replicate starts_ends.length false }
  let r0 := calculate_single_line_data diagnostic line_index 0
    continuing_annotations starts_ends rs
  let final_data := r0.1 ::
    finalDataLoop diagnostic line_index continuing_annotations starts_ends fuel 1 r0.2
  -- final stable sort of each row by effective starting column (lines 408–417)
  final_data.map (fun row =>
    List.insertionSort (fun a b =>
      a.start_column_key.1 < b.start_column_key.1 ∨
        (a.start_column_key.1 = b.start_column_key.1 ∧
          a.start_column_key.2 ≤ b.start_column_key.2)) row)

/-- `calculate` (lines 12–79). -/
def calculate (fuel : Nat) (diagnostic : Diagnostic) (f : SimpleFile) (line_index : Nat)
    (annotations : List Annot) (continuing_annotations : List Annot)
    : List (List AnnotationData) :=
  let starts_ends := startsEndsOf diagnostic f line_index annotations
  let vertical_offsets := calculate_vertical_offsets starts_ends
  calculate_final_data diagnostic f line_index starts_ends vertical_offsets
    continuing_annotations fuel

/-! ## The renderer, `src/render/mod.rs`

The sink (`W: WriteColor`) is modelled as the list of strings written to it,
one entry per `write!`/`writeln!` call.  A `ColorConfig` (`src/render/color.rs`)
is modelled as the events its methods write to the sink; the
`DisabledColorConfig` writes nothing, exactly as in the source.  Writes
cannot fail in this model (the `Result` plumbing of the source is dropped),
matching the in-memory buffer used by the crate's own tests. -/

structure RenderConfig where
  surrounding_lines : Nat
deriving DecidableEq, Repr

/-- The renderer's mutable scratch fields (`DiagnosticRenderer`). -/
structure RendererState where
  max_nested_blocks : Nat
  line_digits : Nat
deriving DecidableEq, Repr

/-- A color configuration, modelled by the sink events each method emits. -/
structure ColorConfig where
  reset : List String
  severity : Severity → List String
  name : Severity → List String
  message : List String
  path : List String
  line_number : List String
  line_number_separator : List String
  annot : AnnotationStyle → Severity → List String
  source : List String

/-- `DisabledColorConfig` (`src/render/color.rs`): every method is a no-op. -/
def DisabledColorConfig : ColorConfig where
  reset := []
  severity := fun _ => []
  name := fun _ => []
  message := []
  path := []
  line_number := []
  line_number_separator := []
  annot := fun _ _ => []
  source := []

/-- `" ".repeat n` -/
def spacesStr (n : Nat) : String :=
  String.mk (List.replicate n ' ')

/-- `c.repeat n` as a string -/
def repeatChar (c : Char) (n : Nat) : String :=
  String.mk (List.replicate n c)

/-- Rust's `{:>fill$}` right-aligned padding. -/
def padLeftStr (s : String) (w : Nat) : String :=
  spacesStr (w - s.length) ++ s

/-- `write_line_number` (`src/render/mod.rs`, lines 567–579). -/
def write_line_number (colors : ColorConfig) (st : RendererState)
    (line : Option Nat) (separator : String) : List String :=
  (match line with
   | some l => colors.line_number ++ [padLeftStr (toString l) st.line_digits]
   | none => [padLeftStr "" st.line_digits])
  ++ colors.line_number_separator ++ [separator] ++ colors.reset

/-- `write_source_line` (lines 581–628).  `source.trim().is_empty()` is
`List.all Char.isWhitespace` (all inputs considered are ASCII). -/
def write_source_line (colors : ColorConfig) (st : RendererState)
    (diagnostic : Diagnostic) (f : SimpleFile) (line : Option Nat)
    (separator : String) (continuing_annotations : List Annot) : List String :=
  let line_number := line.map (fun li => f.line_number li)
  write_line_number colors st line_number separator
  ++ (if separator.length < 3 && (continuing_annotations ≠ [] || 0 < st.max_nested_blocks)
      then [spacesStr (3 - separator.length)] else [])
  ++ (continuing_annotations.enum.flatMap (fun x =>
       colors.annot x.2.style diagnostic.severity ++ ["|"] ++ colors.reset
       ++ (if x.1 < continuing_annotations.length - 1 then [" "] else [])))
  ++ (match line with
      | some li =>
        let src := f.source_line li
        if !(src.all Char.isWhitespace) then
          [spacesStr (max (2 * st.max_nested_blocks - (2 * continuing_annotations.length - 1)) 1)]
          ++ colors.source
          ++ [if src.getLast? = some '\n' then String.mk src else String.mk src ++ "\n"]
          ++ colors.reset
        else ["\n"]
      | none => [])

/-- Target start position of a primitive (emitter loop, lines 368–376). -/
def dataStartPos (mnb : Nat) : AnnotationData → Nat
  | .continuingMultiline d => d.vertical_bar_index * 2 + 1
  | .connectingMultiline d => d.vertical_bar_index * 2 + 2
  | .start d => d.location.column_index + 2 * mnb + 1
  | .connectingSingleline d => d.start_column_index + 2 * mnb + 1
  | .«end» d => d.location.column_index + 2 * mnb + 1
  | .hanging d => d.location.column_index + 2 * mnb + 1
  | .label d => d.location.column_index + 2 * mnb + 1

/-- End position of a stacked primitive (lines 384–392). -/
def dataEndPos (mnb : Nat) : AnnotationData → Nat
  | .continuingMultiline d => d.vertical_bar_index * 2 + 1
  | .connectingMultiline d => d.end_location.column_index + 2 * mnb + 1
  | .start d => d.location.column_index + 2 * mnb + 1
  | .connectingSingleline d => d.end_column_index + 2 * mnb + 1
  | .«end» d => d.location.column_index + 2 * mnb + 1
  | .hanging d => d.location.column_index + 2 * mnb + 1
  | .label d => d.location.column_index + 2 * mnb + 1

/-- `write_annotation_data` (lines 418–565), returning the events written
and the updated horizontal index.  The `last` flag only feeds a stderr
debug message and is not modelled. -/
def write_annotation_data (colors : ColorConfig) (mnb : Nat) (d : AnnotationData)
    (to_horizontal_index : Option Nat) (horizontal_index : Nat) : List String × Nat :=
  match d with
  | .continuingMultiline d =>
    let s := d.vertical_bar_index * 2 + 1
    if s < horizontal_index then ([], horizontal_index)
    else
      let pad := if horizontal_index < s then [spacesStr (s - horizontal_index)] else []
      (pad ++ colors.annot d.style d.severity ++ ["|"] ++ colors.reset, s + 1)
  | .connectingMultiline d =>
    let s := d.vertical_bar_index * 2 + 2
    let e := d.end_location.column_index + 2 * mnb + 1
    if e < horizontal_index then ([], horizontal_index)
    else
      let hi := max horizontal_index s
      let pad := if horizontal_index < s then [spacesStr (s - horizontal_index)] else []
      let to_index := match to_horizontal_index with
        | some t => min t e
        | none => e
      (pad ++ colors.annot d.style d.severity
        ++ [repeatChar '_' (to_index - hi)] ++ colors.reset, to_index)
  | .start d =>
    let s := d.location.column_index + 2 * mnb + 1
    if s < horizontal_index then ([], horizontal_index)
    else
      let pad := if horizontal_index < s then [spacesStr (s - horizontal_index)] else []
      (pad ++ colors.annot d.style d.severity
        ++ [if d.style = .primary then "^" else "-"] ++ colors.reset, s + 1)
  | .connectingSingleline d =>
    let s := d.start_column_index + 2 * mnb + 1
    let e := d.end_column_index + 2 * mnb + 1
    if e < horizontal_index then ([], horizontal_index)
    else
      let hi := max horizontal_index s
      let pad := if horizontal_index < s then [spacesStr (s - horizontal_index)] else []
      let to_index := match to_horizontal_index with
        | some t => min t e
        | none => e
      (pad ++ colors.annot d.style d.severity
        ++ [repeatChar
             (if d.as_multiline then '_' else if d.style = .primary then '^' else '-')
             (to_index - hi)]
        ++ colors.reset, to_index)
  | .«end» d =>
    let s := d.location.column_index + 2 * mnb + 1
    if s < horizontal_index then ([], horizontal_index)
    else
      let pad := if horizontal_index < s then [spacesStr (s - horizontal_index)] else []
      (pad ++ colors.annot d.style d.severity
        ++ [if d.style = .primary then "^" else "-"] ++ colors.reset, s + 1)
  | .hanging d =>
    let s := d.location.column_index + 2 * mnb + 1
    if s < horizontal_index then ([], horizontal_index)
    else
      let pad := if horizontal_index < s then [spacesStr (s - horizontal_index)] else []
      (pad ++ colors.annot d.style d.severity ++ ["|"] ++ colors.reset, s + 1)
  | .label d =>
    let s := d.location.column_index + 2 * mnb + 1
    if s < horizontal_index then ([], horizontal_index)
    else
      let pad := if horizontal_index < s then [spacesStr (s - horizontal_index)] else []
      (pad ++ colors.annot d.style d.severity ++ [d.label] ++ colors.reset,
       s + d.label.length)

/-- Flushing the emitter's stack (lines 379–381 and 407–409): the stacked
primitives are written in reverse order. -/
def flushStack (colors : ColorConfig) (mnb : Nat) (to_horizontal_index : Option Nat)
    (stack : List AnnotationData) (hi : Nat) : List String × Nat :=
  stack.reverse.foldl
    (fun (st : List String × Nat) d =>
      let (ev, hi) := write_annotation_data colors mnb d to_horizontal_index st.2
      (st.1 ++ ev, hi))
    ([], hi)

/-- The per-row emitter loop of `render_single_source_annotations`
(lines 357–412): each primitive first flushes the stack up to its start
position, primitives that ended before the new horizontal index are dropped
from the stack, and the row ends by flushing the remaining stack. -/
def emitRowGo (colors : ColorConfig) (mnb : Nat)
    : List AnnotationData → List AnnotationData → Nat → List String → List String
  | [], stack, hi, acc => acc ++ (flushStack colors mnb none stack hi).1
  | d :: rest, stack, hi, acc =>
    let toPos := dataStartPos mnb d
    let (acc, stack, hi) :=
      if hi < toPos then
        let (ev, hi2) := flushStack colors mnb (some toPos) stack hi
        (acc ++ ev, stack.filter (fun x => !(dataEndPos mnb x < hi2)), hi2)
      else (acc, stack, hi)
    emitRowGo colors mnb rest (stack ++ [d]) hi acc

/-- `render_single_source_annotations` (lines 348–416). -/
def render_single_source_annotations (colors : ColorConfig) (st : RendererState)
    (fuel : Nat) (diagnostic : Diagnostic) (f : SimpleFile) (line_index : Nat)
    (annotations continuing_annotations : List Annot) : List String :=
  let data := calculate fuel diagnostic f line_index annotations continuing_annotations
  data.flatMap (fun row =>
    write_line_number colors st none " |"
    ++ emitRowGo colors st.max_nested_blocks row [] 0 [] ++ ["\n"])

/-- `render_single_source_line` (lines 335–346). -/
def render_single_source_line (colors : ColorConfig) (st : RendererState)
    (fuel : Nat) (diagnostic : Diagnostic) (f : SimpleFile)
    (line_index main_line_index : Nat)
    (annotations continuing_annotations : List Annot) : List String :=
  write_source_line colors st diagnostic f (some line_index) " |" continuing_annotations
  ++ (if line_index ≠ main_line_index then []
      else render_single_source_annotations colors st fuel diagnostic f line_index
        annotations continuing_annotations)

/-- `get_start_print_line` (lines 630–632). -/
def get_start_print_line (config : RenderConfig) (line_index : Nat) : Nat :=
  line_index - config.surrounding_lines

/-- `get_last_line_index` (lines 638–640). -/
def get_last_line_index (f : SimpleFile) : Nat :=
  f.line_index (f.source.length - 1)

/-- `get_last_print_line` (lines 634–636). -/
def get_last_print_line (config : RenderConfig) (f : SimpleFile) (line : Nat) : Nat :=
  min (line + config.surrounding_lines) (get_last_line_index f)

/-- `render_post_surrounding_lines` (lines 283–303), returning the events
and the updated `already_printed_end_line_index`. -/
def render_post_surrounding_lines (colors : ColorConfig) (st : RendererState)
    (fuel : Nat) (config : RenderConfig) (diagnostic : Diagnostic) (f : SimpleFile)
    (main_line last_line : Nat) (continuing_annotations : List Annot)
    (already_printed : Nat) : List String × Nat :=
  if already_printed ≤ last_line + 1 then
    let first_print_line := max (last_line + 1) already_printed
    let last_print_line := min (get_last_print_line config f last_line) (main_line - 1)
    if first_print_line ≤ last_print_line then
      ((List.range' first_print_line (last_print_line + 1 - first_print_line)).flatMap
        (fun line => render_single_source_line colors st fuel diagnostic f line
          last_line [] continuing_annotations),
       last_print_line + 1)
    else ([], already_printed)
  else ([], already_printed)

/-- `render_part_lines` (lines 305–333), returning the events and the
updated `already_printed_end_line_index`. -/
def render_part_lines (colors : ColorConfig) (st : RendererState) (fuel : Nat)
    (config : RenderConfig) (diagnostic : Diagnostic) (f : SimpleFile)
    (main_line_index : Nat) (last_line_index : Option Nat)
    (annotations_on_line continuing_annotations : List Annot)
    (already_printed : Nat) : List String × Nat :=
  let r1 :=
    match last_line_index with
    | some last_line => render_post_surrounding_lines colors st fuel config diagnostic f
        main_line_index last_line continuing_annotations already_printed
    | none => ([], already_printed)
  let first_print_line_index := max (get_start_print_line config main_line_index) r1.2
  let e2 :=
    if r1.2 ≠ 0 && r1.2 < first_print_line_index then
      write_source_line colors st diagnostic f none "..." continuing_annotations ++ ["\n"]
    else []
  let e3 := (List.range' first_print_line_index (main_line_index + 1 - first_print_line_index)).flatMap
    (fun line => render_single_source_line colors st fuel diagnostic f line
      main_line_index annotations_on_line continuing_annotations)
  let already_printed2 :=
    if first_print_line_index ≤ main_line_index then main_line_index + 1 else r1.2
  (r1.1 ++ e2 ++ e3, already_printed2)

/-- The inner annot scan of `render_lines_with_annotations`
(lines 237–258): indices of annotations continuing through and incident on
the current line (the scan breaks at the first annot lying entirely
after the current line). -/
def collectIndices (f : SimpleFile) (cur : Nat)
    : List (Nat × Annot) → List Nat × List Nat
  | [] => ([], [])
  | (i, a) :: rest =>
    let s := f.line_index a.range_start
    let e := f.line_index a.range_end
    if cur < s && cur < e then ([], [])
    else if e < cur && s < cur then collectIndices f cur rest
    else
      let (c, o) := collectIndices f cur rest
      ((if s < cur then i :: c else c), (if s = cur || e = cur then i :: o else o))

/-- `render_lines_with_annotations` (lines 216–281). -/
def render_lines_with_annotations (colors : ColorConfig) (st : RendererState)
    (fuel : Nat) (config : RenderConfig) (diagnostic : Diagnostic) (f : SimpleFile)
    (annotations : List Annot) : List String :=
  let lastLineFile := get_last_line_index f
  let (events, already_printed, last?) :=
    (List.range (lastLineFile + 1)).foldl
      (fun (acc : List String × Nat × Option Nat) cur =>
        let (events, already_printed, last?) := acc
        let (contIdx, onIdx) := collectIndices f cur annotations.enum
        if onIdx ≠ [] then
          let (ev, already_printed) := render_part_lines colors st fuel config diagnostic f
            cur last? (onIdx.filterMap (fun i => annotations.get? i))
            (contIdx.filterMap (fun i => annotations.get? i)) already_printed
          (events ++ ev, already_printed, some cur)
        else (events, already_printed, last?))
      ([], 0, none)
  events ++
    (match last? with
     | some last_line =>
       if last_line ≤ get_last_line_index f then
         (render_post_surrounding_lines colors st fuel config diagnostic f
           (get_last_line_index f + 1) last_line [] already_printed).1
       else []
     | none => [])

/-- `render_diagnostic_file` (lines 169–214), returning the events and the
updated renderer state (`max_nested_blocks` is recomputed here). -/
def render_diagnostic_file (colors : ColorConfig) (st : RendererState) (fuel : Nat)
    (config : RenderConfig) (diagnostic : Diagnostic) (f : SimpleFile)
    (annotations : List Annot) : List String × RendererState :=
  let location := (annotations.filter (fun a => a.style = .primary)).head?.map
    (fun a => a.range_start)
  let e1 := write_line_number colors st none "-->" ++ [" "] ++ colors.path ++ [f.name]
  let e2 := match location with
    | some off =>
      let loc := f.location off
      [":" ++ toString loc.1 ++ ":" ++ toString loc.2 ++ "\n"]
    | none => ["\n"]
  let sorted := List.insertionSort (fun a b => a.range_start ≤ b.range_start) annotations
  let mnb := (sorted.foldl
    (fun (acc : Nat × List Nat) a =>
      let (mx, current_nested) := acc
      let s := f.line_index a.range_start
      let e := f.line_index a.range_end
      if s = e then acc
      else
        let current_nested := (current_nested.filter (fun a_end => s < a_end)) ++ [e]
        (max mx current_nested.length, current_nested))
    (0, [])).1
  let st := { st with max_nested_blocks := mnb }
  (e1 ++ e2 ++ colors.reset
    ++ render_lines_with_annotations colors st fuel config diagnostic f sorted, st)

/-- `render_diagnostic_header` (lines 142–167). -/
def render_diagnostic_header (colors : ColorConfig) (diagnostic : Diagnostic)
    : List String :=
  colors.severity diagnostic.severity ++ [diagnostic.severity.display]
  ++ (match diagnostic.name with
      | some n =>
        ["["] ++ colors.name diagnostic.severity ++ [n]
          ++ colors.severity diagnostic.severity ++ ["]"]
      | none => [])
  ++ (if diagnostic.message ≠ "" then colors.message ++ [": " ++ diagnostic.message ++ "\n"]
      else [])
  ++ colors.reset
  ++ (if diagnostic.message = "" then ["\n"] else [])

/-- `render_diagnostic` (lines 105–140).  The renderer is specialized to a
single source file, so the `BTreeMap` grouping degenerates to the one group
holding the annotations in their original order.  `ilog10(n) + 1` is the
decimal digit count of `n ≥ 1`. -/
def render_diagnostic (colors : ColorConfig) (fuel : Nat) (config : RenderConfig)
    (f : SimpleFile) (st : RendererState) (diagnostic : Diagnostic)
    : List String × RendererState :=
  let e1 := render_diagnostic_header colors diagnostic
  let (e2, st) :=
    if diagnostic.annotations ≠ [] then
      let last_annotated_byte := diagnostic.annotations.foldl
        (fun m a => max m a.range_end) 0
      let last_annotated_line_index := f.line_index last_annotated_byte
      let last_printed_line_index := last_annotated_line_index + config.surrounding_lines
      let last_printed_line_number := f.line_number last_printed_line_index
      let st := { st with line_digits := (toString last_printed_line_number).length }
      render_diagnostic_file colors st fuel config diagnostic f diagnostic.annotations
    else ([], st)
  let e3 :=
    if 0 < diagnostic.suppressed_count then
      ["... and " ++ toString diagnostic.suppressed_count ++ " more\n"]
    else []
  (e1 ++ e2 ++ e3, { st with max_nested_blocks := 0, line_digits := 0 })

/-- `render_impl` (lines 91–103). -/
def render_impl (colors : ColorConfig) (fuel : Nat) (config : RenderConfig)
    (f : SimpleFile) (diagnostics : List Diagnostic) : List String :=
  let n := diagnostics.length
  (diagnostics.enum.foldl
    (fun (acc : List String × RendererState) x =>
      let (events, st) := acc
      let (ev, st) := render_diagnostic colors fuel config f st x.2
      (events ++ ev ++ (if x.1 < n - 1 then ["\n"] else []), st))
    ([], ⟨0, 0⟩)).1

/-- `render` (lines 83–89): an empty diagnostic list returns immediately. -/
def render (colors : ColorConfig) (fuel : Nat) (config : RenderConfig)
    (f : SimpleFile) (diagnostics : List Diagnostic) : List String :=
  if diagnostics = [] then [] else render_impl colors fuel config f diagnostics

end DiagnosticRender

namespace DiagnosticRender

/-! ## Concrete inputs used by the claims -/

/-- `surroundingLines = 0`. -/
def zeroConfig : RenderConfig := { surrounding_lines := 0 }

/-- `surroundingLines = 1`. -/
def oneConfig : RenderConfig := { surrounding_lines := 1 }

/-- The one-line file of scenario S1 and of `test_calculate_1`. -/
def s1File : SimpleFile := { name := "test_file.test", source := "test file contents".data }

/-- An anonymous error diagnostic with no message (the diagnostic of
`test_calculate_1`). -/
def plainErrorDiagnostic : Diagnostic :=
  { severity := .error, name := none, message := "",
    annotations := [], notes := [], suppressed_count := 0 }

/-- The Primary annotation `[5,9)` labelled `test label` of scenario S1. -/
def s1Annot : Annot :=
  { style := .primary, range_start := 5, range_end := 9, label := "test label" }

/-- The row the claim (and the stale unit test `test_calculate_1`) expects
for scenario S1: boundary at the raw range end 9, label at column 11. -/
def s1ClaimedRow : List AnnotationData :=
  [.start { style := .primary, severity := .error, location := LineColumn.new 0 5 },
   .connectingSingleline { style := .primary, as_multiline := false, severity := .error,
                           line_index := 0, start_column_index := 5, end_column_index := 9 },
   .«end» { style := .primary, severity := .error, location := LineColumn.new 0 9 },
   .label { style := .primary, severity := .error, location := LineColumn.new 0 11,
            label := "test label" }]

/-- The row the code actually produces for scenario S1: the end column is
the range end minus one (8), so the label sits at column 10. -/
def s1ActualRow : List AnnotationData :=
  [.start { style := .primary, severity := .error, location := LineColumn.new 0 5 },
   .connectingSingleline { style := .primary, as_multiline := false, severity := .error,
                           line_index := 0, start_column_index := 5, end_column_index := 8 },
   .«end» { style := .primary, severity := .error, location := LineColumn.new 0 8 },
   .label { style := .primary, severity := .error, location := LineColumn.new 0 10,
            label := "test label" }]

/-- An annotation with an empty byte range `[5,5)`. -/
def emptyRangeAnnot : Annot :=
  { style := .primary, range_start := 5, range_end := 5, label := "x" }

/-- Two-line file for the two-label scenario: line 0 is bytes `[0,20)`,
line 1 is bytes `[20,37)`. -/
def twoLabelFile : SimpleFile :=
  { name := "test_file.test", source := "0123456789012345678\nabcdefghijklmnop".data }

/-- Single-line annotation `[20,22)` (columns 0–1 of line 1), label `a`. -/
def twoLabelAnnotA : Annot :=
  { style := .primary, range_start := 20, range_end := 22, label := "a" }

/-- Multi-line annotation `[5,31)` ending at column 10 of line 1, label `b`. -/
def twoLabelAnnotB : Annot :=
  { style := .secondary, range_start := 5, range_end := 31, label := "b" }

/-- Multi-line annotation `[3,33)` ending at column 12 of line 1, label `c`. -/
def twoLabelAnnotC : Annot :=
  { style := .primary, range_start := 3, range_end := 33, label := "c" }

/-- The layout of line 1 in the two-label scenario. -/
def twoLabelRows : List (List AnnotationData) :=
  calculate 64 plainErrorDiagnostic twoLabelFile 1
    [twoLabelAnnotC, twoLabelAnnotB, twoLabelAnnotA]
    [twoLabelAnnotC, twoLabelAnnotB]

/-- The header-only diagnostic of scenario S6 / `test_header_1`. -/
def headerDiagnostic : Diagnostic :=
  { severity := .error, name := some "test/diagnostic_1", message := "Test message",
    annotations := [], notes := [], suppressed_count := 0 }

/-- The file of `test_header_1` (its contents are never read). -/
def headerFile : SimpleFile := { name := "main.test", source := "unused source".data }

/-- A six-line file (`aaa` … `fff`) for the elision scenario. -/
def elisionFile : SimpleFile :=
  { name := "test.file", source := "aaa\nbbb\nccc\nddd\neee\nfff".data }

/-- Single-line Primary annotation on line 0 of `elisionFile`. -/
def elisionAnnotFirst : Annot :=
  { style := .primary, range_start := 0, range_end := 3, label := "first" }

/-- Single-line Primary annotation on line 3 of `elisionFile`. -/
def elisionAnnotSecond : Annot :=
  { style := .primary, range_start := 12, range_end := 15, label := "second" }

/-- Two single-line Primary annotations on lines 0 and 3 of `elisionFile`. -/
def elisionDiagnostic : Diagnostic :=
  { severity := .error, name := none, message := "msg",
    annotations := [elisionAnnotFirst, elisionAnnotSecond],
    notes := [], suppressed_count := 0 }

/-- One-line file for the location-line scenario. -/
def locationFile : SimpleFile := { name := "c6.file", source := "0123456789012345".data }

/-- Primary annotation `[10,12)`, first in input order. -/
def locationAnnotX : Annot :=
  { style := .primary, range_start := 10, range_end := 12, label := "x" }

/-- Primary annotation `[2,4)`, the earliest by start position. -/
def locationAnnotY : Annot :=
  { style := .primary, range_start := 2, range_end := 4, label := "y" }

/-- Two Primary annotations given with the later range first: the earliest
Primary starts at byte 2 (1-based column 3), but the first in input order
starts at byte 10 (1-based column 11). -/
def locationDiagnostic : Diagnostic :=
  { severity := .error, name := none, message := "m",
    annotations := [locationAnnotX, locationAnnotY],
    notes := [], suppressed_count := 0 }

/-- A diagnostic carrying one note. -/
def notedDiagnostic : Diagnostic :=
  { severity := .error, name := none, message := "Test message",
    annotations := [], notes := [{ severity := .note, message := "a note" }],
    suppressed_count := 0 }

/-! ## Claim theorems: concrete evaluations -/

/-- C1 (counterexample): on the S1 input — a Primary annotation `[5,9)`
labelled `test label` on the one-line source `test file contents` — the
layout core does not produce the claimed row (`End` at column 9,
`ConnectingSingleline(5,9)`, `Label` at column 11). -/
theorem calculate_s1_counterexample :
    calculate 32 plainErrorDiagnostic s1File 0 [s1Annot] [] ≠ [s1ClaimedRow] := by
  decide

/-- C1 (amended): on the S1 input the layout core produces the single row
`Start(5)`, `ConnectingSingleline(5,8)`, `End(8)`, `Label(10, "test label")`:
the end column is the byte-range end minus one (the inclusive position of
the last underlined byte) and the trailing label sits two columns to its
right. -/
theorem calculate_s1_row :
    calculate 32 plainErrorDiagnostic s1File 0 [s1Annot] [] = [s1ActualRow] := by
  decide

/-- C7: rendering the Error diagnostic named `test/diagnostic_1` with
message `Test message`, no annotations, no notes and suppressed count 0,
with styling disabled, writes exactly the bytes
`error[test/diagnostic_1]: Test message\n` to the sink and nothing else. -/
theorem render_header_only :
    render DisabledColorConfig 32 zeroConfig headerFile [headerDiagnostic]
        = ["error", "[", "test/diagnostic_1", "]", ": Test message\n"]
      ∧ String.join (render DisabledColorConfig 32 zeroConfig headerFile [headerDiagnostic])
        = "error[test/diagnostic_1]: Test message\n" := by
  decide

/-- C9: rendering an empty vector of diagnostics performs no write and no
style operation on the sink — the event trace is empty — for every color
configuration, fuel, render configuration and file (the Rust `render`
returns `Ok(())` before touching the sink). -/
theorem render_empty_no_events (colors : ColorConfig) (fuel : Nat)
    (config : RenderConfig) (f : SimpleFile) :
    render colors fuel config f [] = [] :=
  rfl

/-- C5: notes are never rendered — the output for a diagnostic carrying a
note is byte-identical to the output for the same diagnostic with its notes
removed, and consists of the header only. -/
theorem notes_not_rendered :
    render DisabledColorConfig 32 zeroConfig headerFile [notedDiagnostic]
        = render DisabledColorConfig 32 zeroConfig headerFile
            [{ notedDiagnostic with notes := [] }]
      ∧ String.join (render DisabledColorConfig 32 zeroConfig headerFile [notedDiagnostic])
        = "error: Test message\n" := by
  decide

/-- C8: in the two-label scenario, output row 4 of `calculate` contains two
`Label` primitives with a `Hanging` between them — refuting "at most one
`Label` per row, and only as the rightmost element". -/
theorem two_labels_in_row :
    twoLabelRows.get? 4 = some
      [.label { style := .primary, severity := .error,
                location := LineColumn.new 1 0, label := "a" },
       .hanging { style := .secondary, severity := .error,
                  location := LineColumn.new 1 10 },
       .label { style := .primary, severity := .error,
                location := LineColumn.new 1 12, label := "c" }]
    ∧ ((twoLabelRows.getD 4 []).filter AnnotationData.isLabel).length = 2 := by
  decide

/-- C4 (counterexample): with `surroundingLines = 1` the annotated lines 0
and 3 are more than `K+1 = 2` lines apart, yet the rendered output contains
no elision row (no `"..."` is ever written): the claimed threshold `K+1` is
wrong. -/
theorem elision_gap_counterexample :
    elisionFile.line_index 0 = 0 ∧ elisionFile.line_index 12 = 3
    ∧ 1 + 1 < 3 - 0
    ∧ "..." ∉ render DisabledColorConfig 32 oneConfig elisionFile [elisionDiagnostic] := by
  decide

/-- C6 (counterexample): both annotations are Primary; the earliest starts
at byte 2 (1-based `1:3`), but the emitted location line reads `:1:11` —
the position of the Primary annotation that comes first in input order —
and `:1:3` is never written. -/
theorem location_line_counterexample :
    ":1:11\n" ∈ render DisabledColorConfig 32 zeroConfig locationFile [locationDiagnostic]
    ∧ ":1:3\n" ∉ render DisabledColorConfig 32 zeroConfig locationFile [locationDiagnostic] := by
  decide

/-! ## Claim C2 -/

/-- The start of the line containing a byte offset is at or before that
offset (a coherence fact of the modelled file database). -/
theorem lineStartOf_count_le (s : List Char) (off : Nat) :
    lineStartOf s ((s.take off).count '\n') ≤ off := by
  induction s generalizing off with
  | nil => simp [lineStartOf]
  | cons c rest ih =>
    cases off with
    | zero => simp [lineStartOf]
    | succ o =>
      rw [List.take_succ_cons]
      by_cases hc : c = '\n'
      · subst hc
        rw [List.count_cons_self]
        have := ih o
        simp [lineStartOf]
        omega
      · rw [List.count_cons_of_ne (fun h => hc h.symm)]
        cases hk : (rest.take o).count '\n' with
        | zero => simp [lineStartOf]
        | succ k =>
          have := ih o
          rw [hk] at this
          simp only [lineStartOf, if_neg hc]
          omega

/-- `lineRange(lineIndex(off)).start ≤ off`. -/
theorem line_range_start_le (f : SimpleFile) (off : Nat) :
    f.line_range_start (f.line_index off) ≤ off :=
  lineStartOf_count_le f.source off

/-- `lineIndex` is monotone in the byte offset. -/
theorem line_index_mono (f : SimpleFile) {x y : Nat} (h : x ≤ y) :
    f.line_index x ≤ f.line_index y := by
  unfold SimpleFile.line_index
  have hx : f.source.take x = (f.source.take y).take x := by
    rw [List.take_take, Nat.min_eq_left h]
  rw [hx]
  exact List.Sublist.count_le (List.take_sublist _ _) _

/-- A byte offset on an earlier line is smaller. -/
theorem lt_of_line_index_lt (f : SimpleFile) {x y : Nat}
    (h : f.line_index x < f.line_index y) : x < y := by
  by_contra hxy
  push_neg at hxy
  exact absurd (line_index_mono f hxy) (Nat.not_le.2 h)

/-- C2 (amended): for every annotation with a nonempty byte range whose
range both starts and ends on the laid-out line (a `Both` incidence), the
start column computed by `calculate` is at most the end column, and the end
column equals the range end minus the line's start byte, minus one. -/
theorem both_columns_amended (diagnostic : Diagnostic) (f : SimpleFile) (li : Nat)
    (a : Annot) (s : StartAnnotationLineData) (e : EndAnnotationLineData)
    (hne : a.range_start < a.range_end)
    (h : startEndDataFor diagnostic f li a = some (a, .both s e)) :
    s.location.column_index ≤ e.location.column_index
      ∧ e.location.column_index = a.range_end - f.line_range_start li - 1 := by
  simp only [startEndDataFor] at h
  by_cases hs : f.line_index a.range_start = li
  · by_cases he : f.line_index a.range_end = li
    · simp only [if_pos hs, if_pos he] at h
      have hL : f.line_range_start li ≤ a.range_start := by
        have := line_range_start_le f a.range_start
        rwa [hs] at this
      simp only [Option.some.injEq, Prod.mk.injEq, StartEndAnnotationData.both.injEq] at h
      obtain ⟨-, hS, hE⟩ := h
      rw [← hS, ← hE]
      simp only [LineColumn.new, hs, he]
      refine ⟨?_, ?_⟩
      · simp
        try omega
      · simp
        try omega
    · simp only [if_pos hs, if_neg he] at h
      simp at h
  · by_cases he : f.line_index a.range_end = li
    · simp only [if_neg hs, if_pos he] at h
      simp at h
    · simp only [if_neg hs, if_neg he] at h
      simp at h


/-- C2 (counterexample): the empty byte range `[5,5)` yields a `Both`
incidence whose end column 4 is strictly below its start column 5, so the
claim fails without the nonempty-range hypothesis. -/
theorem both_empty_range_counterexample :
    startEndDataFor plainErrorDiagnostic s1File 0 emptyRangeAnnot
        = some (emptyRangeAnnot,
            .both { style := .primary, severity := .error, location := LineColumn.new 0 5 }
                  { style := .primary, severity := .error, location := LineColumn.new 0 4 })
      ∧ ¬ ((5 : Nat) ≤ 4) := by
  decide

/-- The `Both` start data computed for the S1 annotation. -/
def s1StartData : StartAnnotationLineData :=
  { style := .primary, severity := .error, location := LineColumn.new 0 5 }

/-- The `Both` end data computed for the S1 annotation. -/
def s1EndData : EndAnnotationLineData :=
  { style := .primary, severity := .error, location := LineColumn.new 0 8 }

/-- C2 (witness): the amended claim instantiated on the S1 annotation. -/
theorem both_columns_amended_witness :
    s1StartData.location.column_index ≤ s1EndData.location.column_index
      ∧ s1EndData.location.column_index
        = s1Annot.range_end - s1File.line_range_start 0 - 1 :=
  both_columns_amended plainErrorDiagnostic s1File 0 s1Annot s1StartData s1EndData
    (by decide) (by decide)

/-! ## Claim C3 -/


/-- The single-line pass preserves the length of the offsets vector. -/
theorem singlelinePassGo_length (all : List (Annot × StartEndAnnotationData))
    (l : List (Nat × (Annot × StartEndAnnotationData))) (offsets : List Nat) (nvo : Nat) :
    (singlelinePassGo all l offsets nvo).1.length = offsets.length := by
  induction l generalizing offsets nvo with
  | nil => rfl
  | cons h t ih =>
    obtain ⟨i, a, se⟩ := h
    cases se with
    | start s => simp [singlelinePassGo, ih]
    | «end» e => simp [singlelinePassGo, ih]
    | both s e =>
      simp only [singlelinePassGo]
      split_ifs <;> simp [ih, List.length_set]

/-- The ending pass preserves the length of the offsets vector. -/
theorem endPassGo_length (all : List (Annot × StartEndAnnotationData))
    (lp : List (Nat × Nat × EndAnnotationLineData)) (offsets : List Nat) (nvo : Nat) :
    (endPassGo all lp offsets nvo).1.length = offsets.length := by
  induction lp generalizing offsets nvo with
  | nil => rfl
  | cons h t ih => simp [endPassGo, ih, List.length_set]

/-- The ending pass leaves indices it never processes unchanged. -/
theorem endPassGo_getElem?_not_mem (all : List (Annot × StartEndAnnotationData))
    (lp : List (Nat × Nat × EndAnnotationLineData)) (offsets : List Nat) (nvo : Nat)
    (k : Nat) (hk : ∀ x ∈ lp, x.1 ≠ k) :
    (endPassGo all lp offsets nvo).1[k]? = offsets[k]? := by
  induction lp generalizing offsets nvo with
  | nil => rfl
  | cons h t ih =>
    simp only [endPassGo]
    rw [ih _ _ (fun x hx => hk x (List.mem_cons_of_mem _ hx))]
    exact List.getElem?_set_ne (hk h (List.mem_cons_self _ _))

/-- Every index processed by the ending pass receives an offset at least
the running `next_vertical_offset`. -/
theorem endPassGo_getD_ge (all : List (Annot × StartEndAnnotationData))
    (lp : List (Nat × Nat × EndAnnotationLineData)) (offsets : List Nat) (nvo : Nat)
    (k : Nat) (hmem : k ∈ lp.map (fun x => x.1))
    (hlen : ∀ x ∈ lp, x.1 < offsets.length) :
    nvo ≤ (endPassGo all lp offsets nvo).1.getD k 0 := by
  induction lp generalizing offsets nvo with
  | nil => simp at hmem
  | cons h t ih =>
    simp only [endPassGo]
    have hnv : nvo ≤ endPassBump all h.1 h.2.2.location.column_index nvo := by
      unfold endPassBump
      split_ifs <;> omega
    simp only [List.map_cons, List.mem_cons] at hmem
    by_cases hkt : k ∈ t.map (fun x => x.1)
    · refine Nat.le_trans (Nat.le_trans hnv (Nat.le_succ _)) (ih _ _ hkt ?_)
      intro x hx
      rw [List.length_set]
      exact hlen x (List.mem_cons_of_mem _ hx)
    · have hk : k = h.1 := by tauto
      rw [hk, List.getD_eq_getElem?_getD,
        endPassGo_getElem?_not_mem all t _ _ h.1
          (fun x hx hxk => hkt (by
            have hm : x.1 ∈ t.map (fun y => y.1) := List.mem_map_of_mem _ hx
            rwa [hxk, ← hk] at hm)),
        List.getElem?_set_eq_of_lt _ (hlen h (List.mem_cons_self _ _))]
      simpa using hnv



/-- Within one run of the ending pass, an entry processed later receives a
strictly larger vertical offset (offsets only ever grow along the run). -/
theorem endPassGo_getD_lt (all : List (Annot × StartEndAnnotationData))
    (lp : List (Nat × Nat × EndAnnotationLineData)) (offsets : List Nat) (nvo : Nat)
    (p q : Nat) (hp : p < lp.length) (hq : q < lp.length) (hpq : p < q)
    (hnd : (lp.map (fun x => x.1)).Nodup)
    (hlen : ∀ x ∈ lp, x.1 < offsets.length) :
    (endPassGo all lp offsets nvo).1.getD (lp[p].1) 0
      < (endPassGo all lp offsets nvo).1.getD (lp[q].1) 0 := by
  induction lp generalizing offsets nvo p q with
  | nil => simp at hp
  | cons h t ih =>
    rw [List.map_cons] at hnd
    have hnd' := List.nodup_cons.mp hnd
    cases p with
    | zero =>
      cases q with
      | zero => omega
      | succ q' =>
        simp only [List.getElem_cons_zero, List.getElem_cons_succ, endPassGo]
        have hq' : q' < t.length := by simpa using hq
        have hni : ∀ x ∈ t, x.1 ≠ h.1 := by
          intro x hx hxk
          exact hnd'.1 (hxk ▸ List.mem_map_of_mem _ hx)
        have hlen' : ∀ x ∈ t, x.1 <
            (offsets.set h.1 (endPassBump all h.1 h.2.2.location.column_index nvo)).length := by
          intro x hx
          rw [List.length_set]
          exact hlen x (List.mem_cons_of_mem _ hx)
        have hval : (endPassGo all t
            (offsets.set h.1 (endPassBump all h.1 h.2.2.location.column_index nvo))
            (endPassBump all h.1 h.2.2.location.column_index nvo + 1)).1.getD h.1 0
            = endPassBump all h.1 h.2.2.location.column_index nvo := by
          rw [List.getD_eq_getElem?_getD, endPassGo_getElem?_not_mem all t _ _ h.1 hni,
            List.getElem?_set_eq_of_lt _ (hlen h (List.mem_cons_self _ _))]
          rfl
        have hge := endPassGo_getD_ge all t
          (offsets.set h.1 (endPassBump all h.1 h.2.2.location.column_index nvo))
          (endPassBump all h.1 h.2.2.location.column_index nvo + 1)
          (t[q'].1) (List.mem_map_of_mem _ (t.getElem_mem hq')) hlen'
        rw [hval]
        exact Nat.lt_of_succ_le hge
    | succ p' =>
      cases q with
      | zero => omega
      | succ q' =>
        simp only [List.getElem_cons_succ, endPassGo]
        have hp' : p' < t.length := by simpa using hp
        have hq' : q' < t.length := by simpa using hq
        exact ih _ _ p' q' hp' hq' (by omega) hnd'.2
          (fun x hx => by
            rw [List.length_set]
            exact hlen x (List.mem_cons_of_mem _ hx))

/-- In a list sorted by start byte, an entry with a strictly smaller start
byte sits at a strictly smaller position. -/
theorem sorted_endKeyLe_index_lt (l : List (Nat × Nat × EndAnnotationLineData))
    (hs : List.Sorted endKeyLe l) (px py : Nat) (hpx : px < l.length) (hpy : py < l.length)
    (hk : (l[px]).2.1 < (l[py]).2.1) : px < py := by
  by_contra hcon
  push_neg at hcon
  rcases Nat.lt_or_ge py px with hlt | hge
  · have := hs.rel_get_of_lt (show (⟨py, hpy⟩ : Fin l.length) < ⟨px, hpx⟩ from hlt)
    unfold endKeyLe at this
    simp only [List.get_eq_getElem] at this
    omega
  · have : px = py := by omega
    subst this
    omega

/-- The indices collected for the ending pass form a sublist of the
enumeration indices. -/
theorem endingTriple_indices_sublist (l : List (Nat × (Annot × StartEndAnnotationData))) :
    List.Sublist ((l.filterMap endingTriple).map (fun x => x.1))
      (l.map (fun x => x.1)) := by
  induction l with
  | nil => simp
  | cons h t ih =>
    obtain ⟨i, a, se⟩ := h
    cases se with
    | start s =>
      simp only [List.filterMap_cons, endingTriple, List.map_cons]
      exact ih.cons _
    | «end» e =>
      simp only [List.filterMap_cons, endingTriple, List.map_cons]
      exact ih.cons₂ _
    | both s e =>
      simp only [List.filterMap_cons, endingTriple, List.map_cons]
      exact ih.cons _

/-- The starting pass only writes offsets of `Start` incidences. -/
theorem startPassGo_getElem?_preserve
    (l : List (Nat × (Annot × StartEndAnnotationData))) (offsets : List Nat) (nso : Nat)
    (k : Nat) (hk : ∀ x ∈ l, x.1 = k → ∀ s, x.2.2 ≠ .start s) :
    (startPassGo l offsets nso)[k]? = offsets[k]? := by
  induction l generalizing offsets nso with
  | nil => rfl
  | cons h t ih =>
    obtain ⟨m, a, se⟩ := h
    cases se with
    | start s =>
      simp only [startPassGo]
      rw [ih _ _ (fun x hx => hk x (List.mem_cons_of_mem _ hx))]
      refine List.getElem?_set_ne ?_
      intro hmk
      exact hk (m, a, .start s) (List.mem_cons_self _ _) hmk s rfl
    | «end» e =>
      simp only [startPassGo]
      exact ih _ _ (fun x hx => hk x (List.mem_cons_of_mem _ hx))
    | both s e =>
      simp only [startPassGo]
      exact ih _ _ (fun x hx => hk x (List.mem_cons_of_mem _ hx))



/-- Processing a start-byte-sorted list in reverse, the entry with the
smaller start byte (earlier position) ends up with the strictly larger
vertical offset. -/
theorem endPassGo_rev_getD_lt (all : List (Annot × StartEndAnnotationData))
    (ls : List (Nat × Nat × EndAnnotationLineData)) (offsets : List Nat) (nvo : Nat)
    (p q : Nat) (hp : p < ls.length) (hq : q < ls.length) (hpq : p < q)
    (hnd : (ls.map (fun x => x.1)).Nodup)
    (hlen : ∀ x ∈ ls, x.1 < offsets.length) :
    (endPassGo all ls.reverse offsets nvo).1.getD ((ls[q]).1) 0
      < (endPassGo all ls.reverse offsets nvo).1.getD ((ls[p]).1) 0 := by
  have h1 : ls.length - 1 - q < ls.reverse.length := by
    rw [List.length_reverse]
    omega
  have h2 : ls.length - 1 - p < ls.reverse.length := by
    rw [List.length_reverse]
    omega
  have h3 : ls.length - 1 - q < ls.length - 1 - p := by omega
  have hnd' : (ls.reverse.map (fun x => x.1)).Nodup := by
    rw [List.map_reverse]
    exact (List.nodup_reverse).mpr hnd
  have hlen' : ∀ x ∈ ls.reverse, x.1 < offsets.length := fun x hx =>
    hlen x (List.mem_reverse.mp hx)
  have hmain := endPassGo_getD_lt all ls.reverse offsets nvo
    (ls.length - 1 - q) (ls.length - 1 - p) h1 h2 h3 hnd' hlen'
  rw [List.getElem_reverse, List.getElem_reverse] at hmain
  simp only [show ls.length - 1 - (ls.length - 1 - q) = q from by omega,
    show ls.length - 1 - (ls.length - 1 - p) = p from by omega] at hmain
  exact hmain

/-- Indices in `endingStarts` are positions into `starts_ends`. -/
theorem endingStarts_index_lt (starts_ends : List (Annot × StartEndAnnotationData)) :
    ∀ x ∈ endingStarts starts_ends, x.1 < starts_ends.length := by
  intro x hx
  have hx0 : x ∈ starts_ends.enum.filterMap endingTriple := by
    unfold endingStarts at hx
    simpa using hx
  have hm : x.1 ∈ (starts_ends.enum.filterMap endingTriple).map (fun y => y.1) :=
    List.mem_map_of_mem _ hx0
  have hm2 : x.1 ∈ starts_ends.enum.map (fun y => y.1) :=
    (endingTriple_indices_sublist _).mem hm
  rw [List.enum_map_fst] at hm2
  exact List.mem_range.mp hm2

/-- The indices in `endingStarts` are pairwise distinct. -/
theorem endingStarts_indices_nodup (starts_ends : List (Annot × StartEndAnnotationData)) :
    ((endingStarts starts_ends).map (fun x => x.1)).Nodup := by
  have h1 : ((starts_ends.enum.filterMap endingTriple).map (fun x => x.1)).Nodup := by
    refine (endingTriple_indices_sublist _).nodup ?_
    rw [List.enum_map_fst]
    exact List.nodup_range _
  have hperm : List.Perm ((endingStarts starts_ends).map (fun x => x.1))
      ((starts_ends.enum.filterMap endingTriple).map (fun x => x.1)) := by
    unfold endingStarts
    exact (List.perm_insertionSort endKeyLe _).map _
  exact hperm.nodup_iff.mpr h1



/-- C3: for every two multi-line annotations `a` and `b` that both end on
the laid-out line, if `a`'s range starts on an earlier line of the file than
`b`'s, then the vertical offset assigned to `a` by
`calculate_vertical_offsets` is strictly greater than the one assigned to
`b` (the earlier-starting annotation sits lower). -/
theorem ending_vertical_offsets_ordered (f : SimpleFile)
    (starts_ends : List (Annot × StartEndAnnotationData))
    (i j : Nat) (a b : Annot) (ea eb : EndAnnotationLineData)
    (hi : starts_ends[i]? = some (a, .«end» ea))
    (hj : starts_ends[j]? = some (b, .«end» eb))
    (hline : f.line_index a.range_start < f.line_index b.range_start) :
    (calculate_vertical_offsets starts_ends).getD j 0
      < (calculate_vertical_offsets starts_ends).getD i 0 := by
  have hab : a.range_start < b.range_start := lt_of_line_index_lt f hline
  have hxe : (i, a.range_start, ea) ∈ starts_ends.enum.filterMap endingTriple :=
    List.mem_filterMap.mpr ⟨(i, (a, .«end» ea)), List.mem_enum_iff_getElem?.mpr hi, rfl⟩
  have hye : (j, b.range_start, eb) ∈ starts_ends.enum.filterMap endingTriple :=
    List.mem_filterMap.mpr ⟨(j, (b, .«end» eb)), List.mem_enum_iff_getElem?.mpr hj, rfl⟩
  have hx_s : (i, a.range_start, ea) ∈ endingStarts starts_ends := by
    unfold endingStarts
    simpa using hxe
  have hy_s : (j, b.range_start, eb) ∈ endingStarts starts_ends := by
    unfold endingStarts
    simpa using hye
  obtain ⟨⟨px, hpx⟩, hgx⟩ := List.get_of_mem hx_s
  obtain ⟨⟨py, hpy⟩, hgy⟩ := List.get_of_mem hy_s
  have hgx' : (endingStarts starts_ends)[px] = (i, a.range_start, ea) := by
    simpa using hgx
  have hgy' : (endingStarts starts_ends)[py] = (j, b.range_start, eb) := by
    simpa using hgy
  have hsorted : List.Sorted endKeyLe (endingStarts starts_ends) := by
    unfold endingStarts
    exact List.sorted_insertionSort endKeyLe _
  have hxy : px < py := by
    refine sorted_endKeyLe_index_lt _ hsorted px py hpx hpy ?_
    rw [hgx', hgy']
    exact hab
  have hpresI : ∀ x ∈ starts_ends.enum, x.1 = i → ∀ s, x.2.2 ≠ .start s := by
    intro x hx hxi s
    have hx2 := List.mem_enum_iff_getElem?.mp hx
    rw [hxi, hi] at hx2
    injection hx2 with h2
    rw [← h2]
    simp
  have hpresJ : ∀ x ∈ starts_ends.enum, x.1 = j → ∀ s, x.2.2 ≠ .start s := by
    intro x hx hxj s
    have hx2 := List.mem_enum_iff_getElem?.mp hx
    rw [hxj, hj] at hx2
    injection hx2 with h2
    rw [← h2]
    simp
  simp only [calculate_vertical_offsets]
  rw [List.getD_eq_getElem?_getD, List.getD_eq_getElem?_getD,
    startPassGo_getElem?_preserve _ _ _ j hpresJ,
    startPassGo_getElem?_preserve _ _ _ i hpresI,
    ← List.getD_eq_getElem?_getD, ← List.getD_eq_getElem?_getD]
  have hlen : ∀ x ∈ endingStarts starts_ends, x.1 <
      (singlelinePassGo starts_ends starts_ends.enum.reverse
        (List.replicate starts_ends.length 0) 0).1.length := by
    intro x hx
    rw [singlelinePassGo_length, List.length_replicate]
    exact endingStarts_index_lt starts_ends x hx
  have hmain := endPassGo_rev_getD_lt starts_ends (endingStarts starts_ends)
    (singlelinePassGo starts_ends starts_ends.enum.reverse
      (List.replicate starts_ends.length 0) 0).1
    (singlelinePassGo starts_ends starts_ends.enum.reverse
      (List.replicate starts_ends.length 0) 0).2
    px py hpx hpy hxy (endingStarts_indices_nodup starts_ends) hlen
  rw [hgx', hgy'] at hmain
  exact hmain


/-- Three-line file for the C3 witness: lines `[0,3)`, `[3,6)`, `[6,11)`. -/
def c3File : SimpleFile := { name := "c3.file", source := "ab\ncd\nefgh\n".data }

/-- Multi-line annotation `[0,7)` (starts on line 0, ends on line 2). -/
def c3AnnotA : Annot :=
  { style := .primary, range_start := 0, range_end := 7, label := "something" }

/-- Multi-line annotation `[3,8)` (starts on line 1, ends on line 2). -/
def c3AnnotB : Annot :=
  { style := .secondary, range_start := 3, range_end := 8, label := "something else" }

/-- End data of `c3AnnotA` on line 2 (column `7 - 6 - 1 = 0`). -/
def c3EndA : EndAnnotationLineData :=
  { style := .primary, severity := .error, location := LineColumn.new 2 0 }

/-- End data of `c3AnnotB` on line 2 (column `8 - 6 - 1 = 1`). -/
def c3EndB : EndAnnotationLineData :=
  { style := .secondary, severity := .error, location := LineColumn.new 2 1 }

/-- The incidence list of line 2 of `c3File`. -/
def c3StartsEnds : List (Annot × StartEndAnnotationData) :=
  [(c3AnnotA, .«end» c3EndA), (c3AnnotB, .«end» c3EndB)]

/-- C3 (witness): `c3AnnotA` starts on line 0, `c3AnnotB` on line 1; both
end on line 2, and the earlier-starting annotation gets the strictly larger
vertical offset. -/
theorem ending_vertical_offsets_ordered_witness :
    (calculate_vertical_offsets c3StartsEnds).getD 1 0
      < (calculate_vertical_offsets c3StartsEnds).getD 0 0 :=
  ending_vertical_offsets_ordered c3File c3StartsEnds 0 1 c3AnnotA c3AnnotB c3EndA c3EndB
    (by decide) (by decide) (by decide)

/-! ## Claim C10 -/


/-- Every row produced by the row loop contains a primitive that is not a
continuing vertical bar: the loop pushes a row only after checking this. -/
theorem finalDataLoop_rows_not_continuing (diagnostic : Diagnostic) (line_index : Nat)
    (continuing : List Annot) (starts_ends : List (Annot × StartEndAnnotationData))
    (fuel : Nat) :
    ∀ vi rs, ∀ row ∈ finalDataLoop diagnostic line_index continuing starts_ends fuel vi rs,
      row.any (fun d => !d.isContinuing) = true := by
  induction fuel with
  | zero =>
    intro vi rs row h
    simp [finalDataLoop] at h
  | succ fuel ih =>
    intro vi rs row h
    simp only [finalDataLoop] at h
    split at h
    · rcases List.mem_cons.mp h with hEq | hMem
      · subst hEq
        assumption
      · exact ih _ _ row hMem
    · simp at h

/-- C10: in the list of rows returned by `calculate`, every row after row 0
contains at least one element that is not a `ContinuingMultiline`; and row
generation stops at the first row that would consist only of
`ContinuingMultiline` elements (or be empty) — that row is not included in
the result.  The nonempty-annotations hypothesis mirrors the Rust code,
which indexes `vertical_offsets[starts_ends.len() - 1]` and cannot return
on an empty annotation list. -/
theorem rows_after_first_not_continuing (fuel : Nat) (diagnostic : Diagnostic)
    (f : SimpleFile) (line_index : Nat) (annotations continuing : List Annot)
    (_hne : annotations ≠ []) :
    (∀ row ∈ (calculate fuel diagnostic f line_index annotations continuing).drop 1,
       ∃ d ∈ row, d.isContinuing = false)
    ∧ (∀ vi rs,
        ((calculate_single_line_data diagnostic line_index vi continuing
            (startsEndsOf diagnostic f line_index annotations) rs).1.any
          (fun d => !d.isContinuing)) = false →
        finalDataLoop diagnostic line_index continuing
          (startsEndsOf diagnostic f line_index annotations) (fuel + 1) vi rs = []) := by
  constructor
  · intro row hrow
    simp only [calculate, calculate_final_data, List.map_cons, List.drop_succ_cons,
      List.drop_zero] at hrow
    obtain ⟨row0, hrow0, rfl⟩ := List.mem_map.mp hrow
    have hany := finalDataLoop_rows_not_continuing diagnostic line_index continuing
      (startsEndsOf diagnostic f line_index annotations) fuel _ _ row0 hrow0
    obtain ⟨d, hd, hdp⟩ := List.any_eq_true.mp hany
    refine ⟨d, ?_, ?_⟩
    · simpa using hd
    · simpa using hdp
  · intro vi rs hall
    simp only [finalDataLoop, hall]
    simp


/-- C10 (witness): the claim instantiated on the two-label scenario, whose
layout has six rows. -/
theorem rows_after_first_not_continuing_witness :
    (∀ row ∈ (calculate 64 plainErrorDiagnostic twoLabelFile 1
        [twoLabelAnnotC, twoLabelAnnotB, twoLabelAnnotA]
        [twoLabelAnnotC, twoLabelAnnotB]).drop 1,
       ∃ d ∈ row, d.isContinuing = false)
    ∧ (∀ vi rs,
        ((calculate_single_line_data plainErrorDiagnostic 1 vi
            [twoLabelAnnotC, twoLabelAnnotB]
            (startsEndsOf plainErrorDiagnostic twoLabelFile 1
              [twoLabelAnnotC, twoLabelAnnotB, twoLabelAnnotA]) rs).1.any
          (fun d => !d.isContinuing)) = false →
        finalDataLoop plainErrorDiagnostic 1 [twoLabelAnnotC, twoLabelAnnotB]
          (startsEndsOf plainErrorDiagnostic twoLabelFile 1
            [twoLabelAnnotC, twoLabelAnnotB, twoLabelAnnotA]) (64 + 1) vi rs = []) :=
  rows_after_first_not_continuing 64 plainErrorDiagnostic twoLabelFile 1
    [twoLabelAnnotC, twoLabelAnnotB, twoLabelAnnotA]
    [twoLabelAnnotC, twoLabelAnnotB] (by decide)

/-! ## Claims C4 and C6: the general statements -/


/-- After back-filling the trailing context of the previous annotated line
`P`, the `already_printed` index sits at
`max (P+1) (min (P+K) (M-1) + 1)` (the context lines never reach the next
annotated line `M` or the end of the file). -/
theorem post_surrounding_ape (colors : ColorConfig) (st : RendererState) (fuel : Nat)
    (config : RenderConfig) (diagnostic : Diagnostic) (f : SimpleFile) (M P : Nat)
    (cont : List Annot) (hPM : P < M) (hML : M ≤ get_last_line_index f) :
    (render_post_surrounding_lines colors st fuel config diagnostic f M P cont (P + 1)).2
      = max (P + 1) (min (P + config.surrounding_lines) (M - 1) + 1) := by
  unfold render_post_surrounding_lines get_last_print_line
  rw [if_pos (Nat.le_refl _)]
  dsimp only
  split_ifs with h1
  · omega
  · omega



/-- C4 (amended): when the block for annotated line `M` is rendered right
after the block for annotated line `P` (`already_printed = P + 1`), the
output of `render_part_lines` is the trailing-context lines, then an
elision row (`"..."` in place of the line number, carrying only the
continuing bars) exactly when the two annotated lines are more than
`2K + 1` lines apart, then the leading-context and main rows. -/
theorem elision_iff_gap (colors : ColorConfig) (st : RendererState) (fuel : Nat)
    (config : RenderConfig) (diagnostic : Diagnostic) (f : SimpleFile) (M P : Nat)
    (anns cont : List Annot) (hPM : P < M) (hML : M ≤ get_last_line_index f) :
    render_part_lines colors st fuel config diagnostic f M (some P) anns cont (P + 1)
      = ((render_post_surrounding_lines colors st fuel config diagnostic f M P cont (P + 1)).1
          ++ (if P + 2 * config.surrounding_lines + 1 < M then
                write_source_line colors st diagnostic f none "..." cont ++ ["\n"]
              else [])
          ++ (List.range' (max (M - config.surrounding_lines)
                  (render_post_surrounding_lines colors st fuel config diagnostic f M P cont
                    (P + 1)).2)
                (M + 1 - max (M - config.surrounding_lines)
                  (render_post_surrounding_lines colors st fuel config diagnostic f M P cont
                    (P + 1)).2)).flatMap
              (fun line => render_single_source_line colors st fuel diagnostic f line M
                anns cont),
         M + 1) := by
  have hape := post_surrounding_ape colors st fuel config diagnostic f M P cont hPM hML
  simp only [render_part_lines, get_start_print_line]
  rw [hape]
  rw [Prod.mk.injEq]
  refine ⟨?_, ?_⟩
  · congr 1
    congr 1
    split_ifs with h1 h2 h2
    · rfl
    · exfalso
      simp only [ne_eq, Bool.and_eq_true, decide_eq_true_eq] at h1
      omega
    · exfalso
      simp only [ne_eq, Bool.and_eq_true, decide_eq_true_eq] at h1
      omega
    · rfl
  · rw [if_pos (by omega)]



/-- C6 (amended): for every file group whose annotation list contains a
Primary annotation, the location line shows the 1-based line and column of
the first Primary annotation in the order the annotations appear in the
diagnostic (the location is computed before the group is sorted by start
byte). -/
theorem location_line_first_primary (colors : ColorConfig) (st : RendererState)
    (fuel : Nat) (config : RenderConfig) (diagnostic : Diagnostic) (f : SimpleFile)
    (anns : List Annot) (a : Annot)
    (h : (anns.filter (fun x => x.style = .primary)).head? = some a) :
    (":" ++ toString (f.location a.range_start).1 ++ ":"
        ++ toString (f.location a.range_start).2 ++ "\n")
      ∈ (render_diagnostic_file colors st fuel config diagnostic f anns).1 := by
  simp only [render_diagnostic_file, h, Option.map_some, SimpleFile.location]
  simp [List.mem_append]


/-- C4 (witness): the amended claim instantiated on the elision scenario
with `K = 1`, previous annotated line 0 and next annotated line 3: the gap
is not more than `2K + 1 = 3`, so no elision row separates the blocks. -/
theorem elision_iff_gap_witness :
    render_part_lines DisabledColorConfig ⟨0, 1⟩ 32 oneConfig elisionDiagnostic
        elisionFile 3 (some 0) [elisionAnnotSecond] [] (0 + 1)
      = ((render_post_surrounding_lines DisabledColorConfig ⟨0, 1⟩ 32 oneConfig
            elisionDiagnostic elisionFile 3 0 [] (0 + 1)).1
          ++ (if 0 + 2 * oneConfig.surrounding_lines + 1 < 3 then
                write_source_line DisabledColorConfig ⟨0, 1⟩ elisionDiagnostic elisionFile
                  none "..." [] ++ ["\n"]
              else [])
          ++ (List.range' (max (3 - oneConfig.surrounding_lines)
                  (render_post_surrounding_lines DisabledColorConfig ⟨0, 1⟩ 32 oneConfig
                    elisionDiagnostic elisionFile 3 0 [] (0 + 1)).2)
                (3 + 1 - max (3 - oneConfig.surrounding_lines)
                  (render_post_surrounding_lines DisabledColorConfig ⟨0, 1⟩ 32 oneConfig
                    elisionDiagnostic elisionFile 3 0 [] (0 + 1)).2)).flatMap
              (fun line => render_single_source_line DisabledColorConfig ⟨0, 1⟩ 32
                elisionDiagnostic elisionFile line 3 [elisionAnnotSecond] []),
         3 + 1) :=
  elision_iff_gap DisabledColorConfig ⟨0, 1⟩ 32 oneConfig elisionDiagnostic elisionFile
    3 0 [elisionAnnotSecond] [] (by decide) (by decide)

/-- C6 (witness): the amended claim instantiated on the location scenario —
the location line shows `1:11`, the 1-based position of `locationAnnotX`,
the first Primary annotation in input order. -/
theorem location_line_first_primary_witness :
    (":" ++ toString (locationFile.location locationAnnotX.range_start).1 ++ ":"
        ++ toString (locationFile.location locationAnnotX.range_start).2 ++ "\n")
      ∈ (render_diagnostic_file DisabledColorConfig ⟨0, 1⟩ 32 zeroConfig
          locationDiagnostic locationFile locationDiagnostic.annotations).1 :=
  location_line_first_primary DisabledColorConfig ⟨0, 1⟩ 32 zeroConfig
    locationDiagnostic locationFile locationDiagnostic.annotations locationAnnotX
    (by decide)

end DiagnosticRender
